import Mathlib

/-!
# AM2320 driver: checksum, decoding and the read transaction

A shallow embedding of `am2320.go` (package `am2320`): the functions
`calcCrc16`, `combineBytes` and `AM2320.Read`, followed by the properties
established about them.

Conventions of the embedding

* a Go `byte` is a `Fin 256`;
* a Go `int` (the CRC accumulator) is an `Int`; the only operations applied to
  it are `^`, `&` and `>>` on values that are shown to stay within
  `0..0xFFFF`, so no wrap-around of the machine word can occur;
* a Go `int16` is an `Int` in `-32768..32767`; every conversion to `int16`
  and every `int16` operation that can overflow goes through `toInt16`,
  the two's-complement wrap modulo `2^16`;
* a `float32` field of `SensorValues` holds `float32(raw) / 10` for an `int16`
  value `raw`; the embedding records `raw`, the value in tenths of a unit;
* the operating system (the I2C bus) is a record of the answers it gives to
  the calls that `Read` makes, and `Read` returns, next to its two Go results,
  the trace of the calls it issued.
-/

namespace am2320

/-! ## Machine integers -/

/-- A Go `byte`. -/
abbrev Byte := Fin 256

/-- Conversion to `int16`: keep the low 16 bits, read as two's complement. -/
def toInt16 (x : Int) : Int := (x + 32768) % 65536 - 32768

/-- The 16-bit pattern (`0..65535`) of an integer. -/
def bits16 (x : Int) : Nat := (x % 65536).toNat

/-- Bitwise `|` of two `int16` values: the OR of their 16-bit patterns. -/
def int16Or (a b : Int) : Int := toInt16 ((bits16 a ||| bits16 b : Nat) : Int)

/-! ## `calcCrc16` and `combineBytes` (am2320.go, lines 96-118) -/

/-- Body of the inner loop of `calcCrc16`:
`if (crc & 0x0001) == 0x0001 { crc >>= 1; crc ^= 0xA001 } else { crc >>= 1 }`. -/
def crcBit (crc : Int) : Int :=
  if Int.land crc 0x0001 = 0x0001 then Int.xor (Int.shiftRight crc 1) 0xA001
  else Int.shiftRight crc 1

/-- The inner loop `for i := 0; i < 8; i++ { ... }`, with `n` iterations left. -/
def crcBits : Nat → Int → Int
  | 0, crc => crc
  | n + 1, crc => crcBits n (crcBit crc)

/-- Body of the outer loop of `calcCrc16` for the byte `x`:
`crc = crc ^ int(x)` followed by the inner loop. -/
def crcByte (crc : Int) (x : Byte) : Int :=
  crcBits 8 (Int.xor crc (x.val : Int))

/-- The accumulator `crc` of `calcCrc16` after the loop `for _, x := range data`,
started at `crc := 0xffff`. -/
def crcAcc (data : List Byte) : Int := data.foldl crcByte 0xffff

/-- Go `calcCrc16`: `return int16(crc)`. -/
def calcCrc16 (data : List Byte) : Int := toInt16 (crcAcc data)

/-- Go `combineBytes`: `int16(msb)<<8 | int16(lsb)`. -/
def combineBytes (msb lsb : Byte) : Int :=
  int16Or (toInt16 (toInt16 (msb.val : Int) * 2 ^ 8)) (toInt16 (lsb.val : Int))

/-! ## The CRC-16/MODBUS accumulator as the specification words it -/

/-- One of the 8 iterations: "if the low bit of the accumulator is set, shift
the accumulator right by one bit and XOR the result with the constant `0xA001`;
otherwise just shift right by one bit". -/
def modbusBit (acc : Nat) : Nat :=
  if acc % 2 = 1 then (acc / 2) ^^^ 0xA001 else acc / 2

/-- The step "XOR it into the low byte of the accumulator": the low byte is
replaced by its XOR with the input byte, the higher bits are kept. -/
def xorLowByte (acc : Nat) (b : Byte) : Nat :=
  (acc / 256) * 256 + ((acc % 256) ^^^ b.val)

/-- Processing of one input byte: XOR into the low byte, "then perform 8
iterations". -/
def modbusByte (acc : Nat) (b : Byte) : Nat :=
  modbusBit^[8] (xorLowByte acc b)

/-- The whole computation: "initialize an accumulator to `0xFFFF`", then process
each input byte in order. -/
def modbusAcc (data : List Byte) : Nat := data.foldl modbusByte 0xFFFF

/-! ## Single-bit changes of an input -/

/-- The byte `b` with bit `k % 8` inverted. -/
def flipByteBit (b : Byte) (k : Nat) : Byte :=
  ⟨(b.val ^^^ 2 ^ (k % 8)) % 256, Nat.mod_lt _ (by decide)⟩

/-- The byte sequence `data` with the bit at position `p` inverted: bit `p % 8`
of the byte at index `p / 8`. A position past the end changes nothing. -/
def flipBit : List Byte → Nat → List Byte
  | [], _ => []
  | x :: xs, p => if p < 8 then flipByteBit x p :: xs else x :: flipBit xs (p - 8)

/-! ## The sensor, its values and the bus (am2320.go, lines 30-49) -/

/-- Go constant `DefaultI2CAddr`. -/
def DefaultI2CAddr : Int := 0x5c

/-- Go constant `i2CSlave`, the `ioctl` request that selects the target address. -/
def i2CSlave : Nat := 0x0703

/-- Go `type AM2320 struct { Address int }`. -/
structure AM2320 where
  Address : Int
  deriving DecidableEq

/-- Go `SensorValues`. Each field holds the `int16` value `raw` of which the Go
field is `float32(raw) / 10`: the temperature in tenths of a degree Celsius and
the humidity in tenths of a percent. -/
structure SensorValues where
  Temperature : Int
  Humidity : Int
  deriving DecidableEq

/-- A Go `error` value that `Read` can return: an error reported by the
operating system for a call on the bus device, or one built by `errors.New`. -/
inductive GoError where
  | sys (errno : Nat)
  | new (text : String)
  deriving DecidableEq

/-- The error `Read` builds when the checksum comparison fails (line 87). -/
def crcCheckFailed : GoError := GoError.new "Failed to read from AM230 >> CRC check failed"

/-- The answers of the operating system to the calls `Read` makes, in the order
of the calls. `Read` passes constant arguments, so one answer per call
describes every behaviour of the bus. -/
structure Bus where
  /-- Error of `os.OpenFile`: `none` when the device file was opened. -/
  openErr : Option GoError
  /-- The descriptor `f.Fd()` of the opened file. -/
  fd : Nat
  /-- Error returned by `unix.IoctlSetInt`, the address selection. -/
  ioctlErr : Option GoError
  /-- Error returned by the first `f.Write`, the wake write. -/
  wakeErr : Option GoError
  /-- Error returned by the second `f.Write`, the command write. -/
  cmdErr : Option GoError
  /-- Bytes that `f.Read` stores at the start of the buffer. -/
  delivered : List Byte
  /-- Error returned by `f.Read`. -/
  readErr : Option GoError

/-- A call issued by `Read`, with its arguments. -/
inductive BusOp where
  | openFile (path : String) (flag : String) (perm : Nat)
  | ioctlSetInt (fd : Nat) (req : Nat) (value : Int)
  | write (data : List Byte)
  | sleep (microseconds : Nat)
  | read (len : Nat)
  | close (fd : Nat)
  deriving DecidableEq

/-- What a call of `Read` produces: the two Go results and the calls issued. -/
structure Outcome where
  values : Option SensorValues
  err : Option GoError
  trace : List BusOp
  deriving DecidableEq

/-- The buffer after `f.Read(buf)`: the delivered bytes overwrite the start of
the buffer, at most `len(buf)` of them; the rest of the buffer is unchanged. -/
def fillBuffer (buf delivered : List Byte) : List Byte :=
  delivered.take buf.length ++ buf.drop delivered.length

/-- The byte count `n` that `f.Read(buf)` returns. -/
def readCount (buf delivered : List Byte) : Nat := min delivered.length buf.length

/-! ## `AM2320.Read` (am2320.go, lines 52-94) -/

/-- Lines 86-93 of `Read`: the checksum comparison and the decoding of the
8-byte buffer `result`. -/
def decode (result : List Byte) : Option SensorValues × Option GoError :=
  if calcCrc16 (result.take 6) ≠ combineBytes (result.getD 7 0) (result.getD 6 0) then
    (none, some crcCheckFailed)
  else
    let temp := combineBytes (result.getD 4 0) (result.getD 5 0)
    let hum := combineBytes (result.getD 2 0) (result.getD 3 0)
    (some ⟨temp, hum⟩, none)

/-- Lines 60-93 of `Read`, the part that runs with the device file open. The
results of `unix.IoctlSetInt` and of both `f.Write` calls are discarded by the
source, and so is the byte count of `f.Read`. -/
def readBody (am2320 : AM2320) (bus : Bus) :
    (Option SensorValues × Option GoError) × List BusOp :=
  let _ioctl := bus.ioctlErr
  let t1 := [BusOp.ioctlSetInt bus.fd i2CSlave am2320.Address]
  let _wake := bus.wakeErr
  let t2 := t1 ++ [BusOp.write [0x00]]
  let t3 := t2 ++ [BusOp.sleep (1000 * 1)]
  let _cmd := bus.cmdErr
  let t4 := t3 ++ [BusOp.write [0x03, 0x00, 0x04]]
  let t5 := t4 ++ [BusOp.sleep (1600 * 1)]
  let buf : List Byte := List.replicate 8 0
  let t6 := t5 ++ [BusOp.read buf.length]
  let result := fillBuffer buf bus.delivered
  let _n := readCount buf bus.delivered
  match bus.readErr with
  | some err => ((none, some err), t6)
  | none => (decode result, t6)

/-- Go `func (am2320 AM2320) Read() (*SensorValues, error)`. The deferred
`f.Close()` runs when the function returns, on every path after the open. -/
def AM2320.Read (am2320 : AM2320) (bus : Bus) : Outcome :=
  let t0 := [BusOp.openFile "/dev/i2c-1" "O_RDWR" 0o666]
  match bus.openErr with
  | some err => ⟨none, some err, t0⟩
  | none =>
    let r := readBody am2320 bus
    ⟨r.1.1, r.1.2, t0 ++ r.2 ++ [BusOp.close bus.fd]⟩

/-- A bus on which the open and the read succeed and the read delivers `bs`;
the answers to the address selection and to the two writes are given. -/
def busDelivering (ioctlErr wakeErr cmdErr : Option GoError) (bs : List Byte) : Bus :=
  ⟨none, 3, ioctlErr, wakeErr, cmdErr, bs, none⟩

/-- Whether a call is a write to or a read from the bus. -/
def BusOp.isTransfer : BusOp → Bool
  | BusOp.write _ => true
  | BusOp.read _ => true
  | _ => false

/-! ## Concrete transactions -/

/-- A sensor at the default address. -/
def defaultSensor : AM2320 := ⟨DefaultI2CAddr⟩

/-- The response `03 04 02 2C 01 05` (humidity 55.6, temperature 26.1) followed
by its checksum `0x0AF0`, low byte first. -/
def sampleResponse : List Byte := [0x03, 0x04, 0x02, 0x2C, 0x01, 0x05, 0xF0, 0x0A]

/-- A response with a valid checksum (`0x7290`) whose temperature bytes are
`80 65`: bit 15 set, magnitude 101. -/
def coldResponse : List Byte := [0x03, 0x04, 0x02, 0x2C, 0x80, 0x65, 0x90, 0x72]

/-- Five bytes; followed by three zero bytes they form a buffer whose checksum
over the first six bytes is `0x0000`. -/
def shortResponse : List Byte := [0x03, 0x04, 0x02, 0x02, 0xC1]

set_option maxRecDepth 8000

/-! ## Lemmas on the machine integers -/

theorem toInt16_range (x : Int) : -32768 ≤ toInt16 x ∧ toInt16 x ≤ 32767 := by
  unfold toInt16; omega

theorem toInt16_of_lt (n : Nat) (h : n < 32768) : toInt16 (n : Int) = n := by
  unfold toInt16; omega

theorem toInt16_of_ge (n : Nat) (h1 : 32768 ≤ n) (h2 : n < 65536) :
    toInt16 (n : Int) = (n : Int) - 65536 := by
  unfold toInt16; omega

theorem toInt16_emod (n : Nat) (h : n < 65536) : toInt16 (n : Int) % 65536 = n := by
  unfold toInt16; omega

theorem toInt16_inj (m n : Nat) (hm : m < 65536) (hn : n < 65536)
    (h : toInt16 (m : Int) = toInt16 (n : Int)) : m = n := by
  unfold toInt16 at h; omega

theorem bits16_toInt16 (x : Int) : bits16 (toInt16 x) = bits16 x := by
  unfold bits16 toInt16; omega

theorem bits16_natCast (n : Nat) (h : n < 65536) : bits16 (n : Int) = n := by
  unfold bits16; omega

/-! ## The source accumulator agrees with the MODBUS accumulator -/

theorem modbusBit_lt (a : Nat) (h : a < 65536) : modbusBit a < 65536 := by
  unfold modbusBit
  split
  · exact Nat.xor_lt_two_pow (n := 16) (by omega) (by decide)
  · omega

theorem modbusBit_iterate_lt (k a : Nat) (h : a < 65536) : modbusBit^[k] a < 65536 := by
  induction k generalizing a with
  | zero => simpa using h
  | succ k ih => rw [Function.iterate_succ_apply]; exact ih _ (modbusBit_lt a h)

theorem xorLowByte_eq (a : Nat) (b : Byte) : xorLowByte a b = a ^^^ b.val := by
  unfold xorLowByte
  have hb : b.val < 2 ^ 8 := b.isLt
  have hlow : (a % 256) ^^^ b.val < 2 ^ 8 :=
    Nat.xor_lt_two_pow (Nat.mod_lt _ (by decide)) hb
  apply Nat.eq_of_testBit_eq
  intro j
  have e : a / 256 * 256 + (a % 256 ^^^ b.val) = 2 ^ 8 * (a / 256) + (a % 256 ^^^ b.val) := by
    omega
  rw [e, Nat.testBit_mul_pow_two_add _ hlow]
  by_cases hj : j < 8
  · have h256 : (256 : Nat) = 2 ^ 8 := by norm_num
    simp only [hj, if_true, Nat.testBit_xor, h256, Nat.testBit_mod_two_pow, decide_True,
      Bool.true_and]
  · have hbj : b.val.testBit j = false :=
      Nat.testBit_lt_two_pow (lt_of_lt_of_le hb (Nat.pow_le_pow_right (by decide) (by omega)))
    have hdiv : (a / 256).testBit (j - 8) = a.testBit j := by
      have h256 : (256 : Nat) = 2 ^ 8 := by norm_num
      rw [h256, ← Nat.shiftRight_eq_div_pow, Nat.testBit_shiftRight]
      congr 1; omega
    simp only [hj, if_false, Nat.testBit_xor, hbj, Bool.xor_false, hdiv]

theorem xorLowByte_lt (a : Nat) (b : Byte) (h : a < 65536) : xorLowByte a b < 65536 := by
  rw [xorLowByte_eq]
  exact Nat.xor_lt_two_pow (n := 16) h (lt_trans b.isLt (by decide))

theorem modbusByte_lt (a : Nat) (b : Byte) (h : a < 65536) : modbusByte a b < 65536 :=
  modbusBit_iterate_lt 8 _ (xorLowByte_lt a b h)

theorem modbusAcc_foldl_lt (data : List Byte) (a : Nat) (h : a < 65536) :
    data.foldl modbusByte a < 65536 := by
  induction data generalizing a with
  | nil => simpa using h
  | cons x xs ih => exact ih _ (modbusByte_lt a x h)

theorem modbusAcc_lt (data : List Byte) : modbusAcc data < 65536 :=
  modbusAcc_foldl_lt data 0xFFFF (by decide)

theorem crcBit_natCast (n : Nat) : crcBit (n : Int) = (modbusBit n : Int) := by
  have hland : Int.land (n : Int) 0x0001 = ((n &&& 1 : Nat) : Int) := rfl
  have hshift : Int.shiftRight (n : Int) 1 = ((n >>> 1 : Nat) : Int) := rfl
  have hxor : ∀ m : Nat, Int.xor (m : Int) 0xA001 = ((m ^^^ 0xA001 : Nat) : Int) :=
    fun _ => rfl
  unfold crcBit modbusBit
  rw [hland, hshift, hxor, Nat.and_one_is_mod, Nat.shiftRight_eq_div_pow, pow_one]
  by_cases h : n % 2 = 1
  · have h2 : ((n % 2 : Nat) : Int) = 1 := by exact_mod_cast h
    rw [if_pos h2, if_pos h]
  · have h2 : ¬ ((n % 2 : Nat) : Int) = 1 := by
      intro hc; apply h; exact_mod_cast hc
    rw [if_neg h2, if_neg h]

theorem crcBits_natCast (k n : Nat) : crcBits k (n : Int) = (modbusBit^[k] n : Int) := by
  induction k generalizing n with
  | zero => rfl
  | succ k ih => rw [crcBits, crcBit_natCast, ih, Function.iterate_succ_apply]

theorem crcByte_natCast (n : Nat) (x : Byte) :
    crcByte (n : Int) x = (modbusByte n x : Int) := by
  have hxor : Int.xor (n : Int) (x.val : Int) = ((n ^^^ x.val : Nat) : Int) := rfl
  unfold crcByte modbusByte
  rw [hxor, crcBits_natCast, xorLowByte_eq]

theorem crcAcc_foldl_natCast (data : List Byte) (n : Nat) :
    data.foldl crcByte (n : Int) = ((data.foldl modbusByte n : Nat) : Int) := by
  induction data generalizing n with
  | nil => rfl
  | cons x xs ih => rw [List.foldl_cons, List.foldl_cons, crcByte_natCast, ih]

theorem crcAcc_eq (data : List Byte) : crcAcc data = (modbusAcc data : Int) :=
  crcAcc_foldl_natCast data 0xFFFF

theorem calcCrc16_eq (data : List Byte) : calcCrc16 data = toInt16 (modbusAcc data : Int) := by
  unfold calcCrc16; rw [crcAcc_eq]


/-! ## Every state transition of the checksum is injective -/

theorem modbusBit_inj (a b : Nat) (ha : a < 65536) (hb : b < 65536)
    (h : modbusBit a = modbusBit b) : a = b := by
  have hbit : (0xA001 : Nat).testBit 15 = true := by decide
  have hmixed : ∀ x y : Nat, x < 65536 → y < 65536 → (x / 2) ^^^ 0xA001 ≠ y / 2 := by
    intro x y hx hy hxy
    have h1 : (x / 2).testBit 15 = false := Nat.testBit_lt_two_pow (by omega)
    have h2 : (y / 2).testBit 15 = false := Nat.testBit_lt_two_pow (by omega)
    have h3 := congrArg (fun n => Nat.testBit n 15) hxy
    simp only [Nat.testBit_xor, h1, h2, hbit] at h3
    exact absurd h3 (by decide)
  unfold modbusBit at h
  by_cases pa : a % 2 = 1 <;> by_cases pb : b % 2 = 1
  · rw [if_pos pa, if_pos pb] at h
    have := Nat.xor_left_inj.mp h
    omega
  · rw [if_pos pa, if_neg pb] at h
    exact absurd h (hmixed a b ha hb)
  · rw [if_neg pa, if_pos pb] at h
    exact absurd h.symm (hmixed b a hb ha)
  · rw [if_neg pa, if_neg pb] at h
    omega

theorem modbusBit_iterate_inj (k a b : Nat) (ha : a < 65536) (hb : b < 65536)
    (h : modbusBit^[k] a = modbusBit^[k] b) : a = b := by
  induction k generalizing a b with
  | zero => simpa using h
  | succ k ih =>
    rw [Function.iterate_succ_apply, Function.iterate_succ_apply] at h
    exact modbusBit_inj a b ha hb (ih _ _ (modbusBit_lt a ha) (modbusBit_lt b hb) h)

theorem modbusByte_inj_acc (a b : Nat) (x : Byte) (ha : a < 65536) (hb : b < 65536)
    (h : modbusByte a x = modbusByte b x) : a = b := by
  unfold modbusByte at h
  have := modbusBit_iterate_inj 8 _ _ (xorLowByte_lt a x ha) (xorLowByte_lt b x hb) h
  rw [xorLowByte_eq, xorLowByte_eq] at this
  exact Nat.xor_left_inj.mp this

theorem modbusByte_inj_byte (a : Nat) (x y : Byte) (ha : a < 65536)
    (h : modbusByte a x = modbusByte a y) : x = y := by
  unfold modbusByte at h
  have := modbusBit_iterate_inj 8 _ _ (xorLowByte_lt a x ha) (xorLowByte_lt a y ha) h
  rw [xorLowByte_eq, xorLowByte_eq] at this
  exact Fin.ext (Nat.xor_right_inj.mp this)

theorem modbusAcc_foldl_inj (data : List Byte) (a b : Nat) (ha : a < 65536) (hb : b < 65536)
    (h : data.foldl modbusByte a = data.foldl modbusByte b) : a = b := by
  induction data generalizing a b with
  | nil => simpa using h
  | cons x xs ih =>
    exact modbusByte_inj_acc a b x ha hb
      (ih _ _ (modbusByte_lt a x ha) (modbusByte_lt b x hb) h)

theorem flipByteBit_ne (x : Byte) (k : Nat) : flipByteBit x k ≠ x := by
  intro h
  have hv : (x.val ^^^ 2 ^ (k % 8)) % 256 = x.val := congrArg Fin.val h
  have hk : k % 8 < 8 := Nat.mod_lt _ (by decide)
  have hpow : 2 ^ (k % 8) < 2 ^ 8 := Nat.pow_lt_pow_right (by decide) hk
  have hlt : x.val ^^^ 2 ^ (k % 8) < 256 := Nat.xor_lt_two_pow (n := 8) x.isLt hpow
  rw [Nat.mod_eq_of_lt hlt] at hv
  have h0 : x.val ^^^ 2 ^ (k % 8) = x.val ^^^ 0 := by rw [hv, Nat.xor_zero]
  have := Nat.xor_right_inj.mp h0
  exact absurd this (Nat.pos_iff_ne_zero.mp (Nat.two_pow_pos _))

theorem modbusAcc_foldl_flipBit (data : List Byte) (p a : Nat) (ha : a < 65536)
    (hp : p < 8 * data.length) :
    (flipBit data p).foldl modbusByte a ≠ data.foldl modbusByte a := by
  induction data generalizing p a with
  | nil => simp at hp
  | cons x xs ih =>
    unfold flipBit
    by_cases h8 : p < 8
    · rw [if_pos h8, List.foldl_cons, List.foldl_cons]
      intro h
      have hacc := modbusAcc_foldl_inj xs _ _ (modbusByte_lt a _ ha) (modbusByte_lt a x ha) h
      exact flipByteBit_ne x p (modbusByte_inj_byte a _ _ ha hacc)
    · rw [if_neg h8, List.foldl_cons, List.foldl_cons]
      apply ih _ _ (modbusByte_lt a x ha)
      simp only [List.length_cons] at hp
      omega

/-! ## Decoding and the checksum comparison -/

theorem combineBytes_eq (msb lsb : Byte) :
    combineBytes msb lsb = toInt16 ((256 * msb.val + lsb.val : Nat) : Int) := by
  have hm : msb.val < 256 := msb.isLt
  have hl : lsb.val < 2 ^ 8 := lsb.isLt
  have h1 : toInt16 (msb.val : Int) = (msb.val : Int) := toInt16_of_lt _ (by omega)
  have h2 : bits16 ((msb.val : Int) * 2 ^ 8) = 2 ^ 8 * msb.val := by
    unfold bits16; omega
  have h3 : bits16 (lsb.val : Int) = lsb.val := bits16_natCast _ (by omega)
  unfold combineBytes int16Or
  rw [bits16_toInt16, bits16_toInt16, h1, h2, h3, ← Nat.mul_add_lt_is_or hl]

theorem combineBytes_of_lt (msb lsb : Byte) (h : msb.val < 128) :
    combineBytes msb lsb = 256 * (msb.val : Int) + lsb.val := by
  have hl : lsb.val < 256 := lsb.isLt
  rw [combineBytes_eq, toInt16_of_lt _ (by omega)]
  push_cast; ring

theorem combineBytes_of_ge (msb lsb : Byte) (h : 128 ≤ msb.val) :
    combineBytes msb lsb = 256 * (msb.val : Int) + lsb.val - 65536 := by
  have hl : lsb.val < 256 := lsb.isLt
  have hm : msb.val < 256 := msb.isLt
  rw [combineBytes_eq, toInt16_of_ge _ (by omega) (by omega)]
  push_cast; ring

theorem crc_match_iff (data : List Byte) (hi lo : Byte) :
    calcCrc16 data = combineBytes hi lo ↔ bits16 (calcCrc16 data) = lo.val + 256 * hi.val := by
  have hh : hi.val < 256 := hi.isLt
  have hl : lo.val < 256 := lo.isLt
  have hacc := modbusAcc_lt data
  rw [calcCrc16_eq, combineBytes_eq, bits16_toInt16, bits16_natCast _ hacc]
  constructor
  · intro h
    have := toInt16_inj _ _ hacc (by omega) h
    omega
  · intro h
    have e : modbusAcc data = 256 * hi.val + lo.val := by omega
    rw [e]

theorem decode_eight (b0 b1 b2 b3 b4 b5 b6 b7 : Byte) :
    decode [b0, b1, b2, b3, b4, b5, b6, b7] =
      if bits16 (calcCrc16 [b0, b1, b2, b3, b4, b5]) = b6.val + 256 * b7.val then
        (some ⟨combineBytes b4 b5, combineBytes b2 b3⟩, none)
      else (none, some crcCheckFailed) := by
  unfold decode
  simp only [List.take_succ_cons, List.take_zero, List.getD_cons_succ, List.getD_cons_zero, ne_eq]
  by_cases h : calcCrc16 [b0, b1, b2, b3, b4, b5] = combineBytes b7 b6
  · rw [if_neg (not_not.mpr h), if_pos ((crc_match_iff _ _ _).mp h)]
  · rw [if_pos h, if_neg (fun hc => h ((crc_match_iff _ _ _).mpr hc))]

theorem decode_cases (result : List Byte) :
    ((decode result).1 = none ∧ (decode result).2 = some crcCheckFailed) ∨
      ((decode result).1 ≠ none ∧ (decode result).2 = none) := by
  unfold decode
  split
  · exact Or.inl ⟨rfl, rfl⟩
  · exact Or.inr ⟨by simp, rfl⟩

/-! ## The shape of every result of `Read` -/

theorem readBody_trace (am2320 : AM2320) (bus : Bus) :
    (readBody am2320 bus).2 =
      [BusOp.ioctlSetInt bus.fd i2CSlave am2320.Address, BusOp.write [0x00], BusOp.sleep 1000,
        BusOp.write [0x03, 0x00, 0x04], BusOp.sleep 1600, BusOp.read 8] := by
  unfold readBody
  cases bus.readErr <;> rfl

theorem readBody_result (am2320 : AM2320) (bus : Bus) :
    (readBody am2320 bus).1 =
      match bus.readErr with
      | some err => (none, some err)
      | none => decode (fillBuffer (List.replicate 8 0) bus.delivered) := by
  unfold readBody
  cases bus.readErr <;> rfl

theorem Read_of_open_ok (am2320 : AM2320) (bus : Bus) (hopen : bus.openErr = none) :
    am2320.Read bus =
      ⟨(readBody am2320 bus).1.1, (readBody am2320 bus).1.2,
        [BusOp.openFile "/dev/i2c-1" "O_RDWR" 0o666] ++ (readBody am2320 bus).2 ++
          [BusOp.close bus.fd]⟩ := by
  unfold AM2320.Read
  rw [hopen]

theorem Read_of_eight (am2320 : AM2320) (bus : Bus) (b0 b1 b2 b3 b4 b5 b6 b7 : Byte)
    (hopen : bus.openErr = none) (hread : bus.readErr = none)
    (hdel : bus.delivered = [b0, b1, b2, b3, b4, b5, b6, b7]) :
    ((am2320.Read bus).values, (am2320.Read bus).err) =
      if bits16 (calcCrc16 [b0, b1, b2, b3, b4, b5]) = b6.val + 256 * b7.val then
        (some ⟨combineBytes b4 b5, combineBytes b2 b3⟩, none)
      else (none, some crcCheckFailed) := by
  have hfill : fillBuffer (List.replicate 8 0) bus.delivered =
      [b0, b1, b2, b3, b4, b5, b6, b7] := by
    rw [hdel]; rfl
  rw [Read_of_open_ok am2320 bus hopen, readBody_result, hread]
  simp only [hfill, decode_eight]

/-! ## Properties of `calcCrc16` -/

/-- C2: for every byte sequence, the empty one included, `calcCrc16` returns the
16-bit truncation of the CRC-16/MODBUS accumulator (start at `0xFFFF`; per byte
XOR into the low byte, then 8 times shift right, XOR-ing `0xA001` when the low
bit was set); the accumulator of the source stays within `0..0xFFFF` after
every byte and after every iteration of the inner loop, so the truncation keeps
all of its bits. -/
theorem calcCrc16_is_modbus (data : List Byte) :
    calcCrc16 data = toInt16 (modbusAcc data : Int) ∧
    bits16 (calcCrc16 data) = modbusAcc data ∧
    crcAcc data = (modbusAcc data : Int) ∧
    (0 ≤ crcAcc data ∧ crcAcc data ≤ 0xFFFF) ∧
    (∀ (x : Byte) (k : Nat),
      0 ≤ crcBits k (Int.xor (crcAcc data) (x.val : Int)) ∧
      crcBits k (Int.xor (crcAcc data) (x.val : Int)) ≤ 0xFFFF) ∧
    calcCrc16 [] = toInt16 0xFFFF := by
  have hacc := modbusAcc_lt data
  refine ⟨calcCrc16_eq data, ?_, crcAcc_eq data, ?_, ?_, rfl⟩
  · rw [calcCrc16_eq, bits16_toInt16, bits16_natCast _ hacc]
  · rw [crcAcc_eq]; omega
  · intro x k
    have hxor : Int.xor ((modbusAcc data : Nat) : Int) (x.val : Int) =
        ((modbusAcc data ^^^ x.val : Nat) : Int) := rfl
    have hlt : modbusAcc data ^^^ x.val < 65536 :=
      Nat.xor_lt_two_pow (n := 16) hacc (lt_trans x.isLt (by decide))
    have := modbusBit_iterate_lt k _ hlt
    rw [crcAcc_eq, hxor, crcBits_natCast]
    omega

/-- C8: for every 6-byte input and every one of its 48 bit positions, inverting
that single bit changes the result of `calcCrc16`. -/
theorem calcCrc16_single_bit_flip (data : List Byte) (p : Nat)
    (hlen : data.length = 6) (hp : p < 48) :
    calcCrc16 (flipBit data p) ≠ calcCrc16 data := by
  intro h
  rw [calcCrc16_eq, calcCrc16_eq] at h
  have hne := modbusAcc_foldl_flipBit data p 0xFFFF (by decide) (by omega)
  exact hne (toInt16_inj _ _ (modbusAcc_lt _) (modbusAcc_lt _) h)

theorem calcCrc16_single_bit_flip_witness :
    ([0x03, 0x04, 0x02, 0x2C, 0x01, 0x05] : List Byte).length = 6 ∧ 47 < 48 ∧
    calcCrc16 (flipBit [0x03, 0x04, 0x02, 0x2C, 0x01, 0x05] 47) ≠
      calcCrc16 [0x03, 0x04, 0x02, 0x2C, 0x01, 0x05] :=
  ⟨rfl, by decide,
    calcCrc16_single_bit_flip [0x03, 0x04, 0x02, 0x2C, 0x01, 0x05] 47 rfl (by decide)⟩

/-! ## Properties of `Read` -/

/-- C1: when the bus read succeeds and delivers the 8 bytes `b0 .. b7`, `Read`
returns a reading with a nil error exactly when the 16-bit pattern of
`calcCrc16` over `b0 .. b5` is the little-endian value with low byte `b6` and
high byte `b7`; otherwise it returns the CRC-check error and no reading; and a
response that differs from an accepted one in byte 6 or in byte 7 is
rejected. -/
theorem Read_accepts_iff_crc_matches (am2320 : AM2320) (bus : Bus)
    (b0 b1 b2 b3 b4 b5 b6 b7 : Byte)
    (hopen : bus.openErr = none) (hread : bus.readErr = none)
    (hdel : bus.delivered = [b0, b1, b2, b3, b4, b5, b6, b7]) :
    (((am2320.Read bus).values ≠ none ∧ (am2320.Read bus).err = none) ↔
        bits16 (calcCrc16 [b0, b1, b2, b3, b4, b5]) = b6.val + 256 * b7.val) ∧
    (bits16 (calcCrc16 [b0, b1, b2, b3, b4, b5]) ≠ b6.val + 256 * b7.val →
        (am2320.Read bus).values = none ∧ (am2320.Read bus).err = some crcCheckFailed) ∧
    (∀ (bus' : Bus) (c6 c7 : Byte), bus'.openErr = none → bus'.readErr = none →
        bus'.delivered = [b0, b1, b2, b3, b4, b5, c6, c7] →
        (c6 ≠ b6 ∨ c7 ≠ b7) →
        ((am2320.Read bus).values ≠ none ∧ (am2320.Read bus).err = none) →
        (am2320.Read bus').values = none ∧ (am2320.Read bus').err = some crcCheckFailed) := by
  have key := Read_of_eight am2320 bus b0 b1 b2 b3 b4 b5 b6 b7 hopen hread hdel
  have hiff : ((am2320.Read bus).values ≠ none ∧ (am2320.Read bus).err = none) ↔
      bits16 (calcCrc16 [b0, b1, b2, b3, b4, b5]) = b6.val + 256 * b7.val := by
    by_cases h : bits16 (calcCrc16 [b0, b1, b2, b3, b4, b5]) = b6.val + 256 * b7.val
    · rw [if_pos h] at key
      have h1 := congrArg Prod.fst key
      have h2 := congrArg Prod.snd key
      simp only at h1 h2
      simp [h1, h2, h]
    · rw [if_neg h] at key
      have h1 := congrArg Prod.fst key
      simp only at h1
      simp [h1, h]
  refine ⟨hiff, ?_, ?_⟩
  · intro h
    rw [if_neg h] at key
    exact ⟨congrArg Prod.fst key, congrArg Prod.snd key⟩
  · intro bus' c6 c7 hopen' hread' hdel' hne hacc
    have hcrc := hiff.mp hacc
    have key' := Read_of_eight am2320 bus' b0 b1 b2 b3 b4 b5 c6 c7 hopen' hread' hdel'
    have hc6 : c6.val < 256 := c6.isLt
    have hb6 : b6.val < 256 := b6.isLt
    have hmis : ¬ bits16 (calcCrc16 [b0, b1, b2, b3, b4, b5]) = c6.val + 256 * c7.val := by
      intro hc
      rw [hcrc] at hc
      have e6 : c6 = b6 := Fin.ext (by omega)
      have e7 : c7 = b7 := Fin.ext (by omega)
      cases hne with
      | inl h => exact h e6
      | inr h => exact h e7
    rw [if_neg hmis] at key'
    exact ⟨congrArg Prod.fst key', congrArg Prod.snd key'⟩

theorem Read_accepts_iff_crc_matches_witness :
    (busDelivering none none none sampleResponse).openErr = none ∧
    (busDelivering none none none sampleResponse).readErr = none ∧
    (busDelivering none none none sampleResponse).delivered =
      [0x03, 0x04, 0x02, 0x2C, 0x01, 0x05, 0xF0, 0x0A] ∧
    (((defaultSensor.Read (busDelivering none none none sampleResponse)).values ≠ none ∧
        (defaultSensor.Read (busDelivering none none none sampleResponse)).err = none) ↔
      bits16 (calcCrc16 [0x03, 0x04, 0x02, 0x2C, 0x01, 0x05]) =
        (0xF0 : Byte).val + 256 * (0x0A : Byte).val) :=
  ⟨rfl, rfl, rfl,
    (Read_accepts_iff_crc_matches defaultSensor (busDelivering none none none sampleResponse)
      0x03 0x04 0x02 0x2C 0x01 0x05 0xF0 0x0A rfl rfl rfl).1⟩

/-- C3: for every 8-byte response that `Read` accepts, the returned humidity
(in tenths) is the 16-bit value with high byte `b2` and low byte `b3`, and the
returned temperature (in tenths) is the 16-bit value with high byte `b4` and low
byte `b5`, each read as the `int16` that `combineBytes` returns: `256 * hi + lo`
when `hi < 0x80`, and `256 * hi + lo - 65536` otherwise. For the response
`03 04 02 2C 01 05` followed by its little-endian CRC `F0 0A`, `Read` returns
temperature 261 and humidity 556 (26.1 and 55.6) with no error. -/
theorem Read_decodes_big_endian (am2320 : AM2320) (bus : Bus)
    (b0 b1 b2 b3 b4 b5 b6 b7 : Byte)
    (hopen : bus.openErr = none) (hread : bus.readErr = none)
    (hdel : bus.delivered = [b0, b1, b2, b3, b4, b5, b6, b7])
    (hacc : (am2320.Read bus).err = none) :
    (∃ v : SensorValues, (am2320.Read bus).values = some v ∧
      v.Humidity = toInt16 ((256 * b2.val + b3.val : Nat) : Int) ∧
      v.Temperature = toInt16 ((256 * b4.val + b5.val : Nat) : Int) ∧
      v.Humidity = (if b2.val < 128 then 256 * (b2.val : Int) + b3.val
        else 256 * (b2.val : Int) + b3.val - 65536) ∧
      v.Temperature = (if b4.val < 128 then 256 * (b4.val : Int) + b5.val
        else 256 * (b4.val : Int) + b5.val - 65536)) ∧
    bits16 (calcCrc16 [0x03, 0x04, 0x02, 0x2C, 0x01, 0x05]) = 0xF0 + 256 * 0x0A ∧
    (∀ ioctlErr wakeErr cmdErr : Option GoError,
      am2320.Read (busDelivering ioctlErr wakeErr cmdErr sampleResponse) =
        ⟨some ⟨261, 556⟩, none,
          [BusOp.openFile "/dev/i2c-1" "O_RDWR" 0o666,
            BusOp.ioctlSetInt 3 i2CSlave am2320.Address, BusOp.write [0x00], BusOp.sleep 1000,
            BusOp.write [0x03, 0x00, 0x04], BusOp.sleep 1600, BusOp.read 8, BusOp.close 3]⟩) := by
  have key := Read_of_eight am2320 bus b0 b1 b2 b3 b4 b5 b6 b7 hopen hread hdel
  have hsample : bits16 (calcCrc16 [0x03, 0x04, 0x02, 0x2C, 0x01, 0x05]) = 0xF0 + 256 * 0x0A := by
    decide
  refine ⟨?_, hsample, ?_⟩
  · by_cases h : bits16 (calcCrc16 [b0, b1, b2, b3, b4, b5]) = b6.val + 256 * b7.val
    · rw [if_pos h] at key
      refine ⟨⟨combineBytes b4 b5, combineBytes b2 b3⟩, congrArg Prod.fst key,
        combineBytes_eq b2 b3, combineBytes_eq b4 b5, ?_, ?_⟩
      · by_cases h2 : b2.val < 128
        · rw [if_pos h2]; exact combineBytes_of_lt b2 b3 h2
        · rw [if_neg h2]; exact combineBytes_of_ge b2 b3 (by omega)
      · by_cases h4 : b4.val < 128
        · rw [if_pos h4]; exact combineBytes_of_lt b4 b5 h4
        · rw [if_neg h4]; exact combineBytes_of_ge b4 b5 (by omega)
    · rw [if_neg h] at key
      have h2 := congrArg Prod.snd key
      simp only at h2
      rw [hacc] at h2
      exact absurd h2 (by simp)
  · intro ioctlErr wakeErr cmdErr
    have hv : decode (fillBuffer (List.replicate 8 0) sampleResponse) =
        (some ⟨261, 556⟩, none) := by decide
    rw [Read_of_open_ok _ _ rfl, readBody_trace, readBody_result]
    simp only [busDelivering, hv]
    rfl

theorem Read_decodes_big_endian_witness :
    (busDelivering none none none coldResponse).openErr = none ∧
    (busDelivering none none none coldResponse).readErr = none ∧
    (busDelivering none none none coldResponse).delivered =
      [0x03, 0x04, 0x02, 0x2C, 0x80, 0x65, 0x90, 0x72] ∧
    (defaultSensor.Read (busDelivering none none none coldResponse)).err = none ∧
    (∃ v : SensorValues,
      (defaultSensor.Read (busDelivering none none none coldResponse)).values = some v ∧
      v.Humidity = toInt16 ((256 * (0x02 : Byte).val + (0x2C : Byte).val : Nat) : Int) ∧
      v.Temperature = toInt16 ((256 * (0x80 : Byte).val + (0x65 : Byte).val : Nat) : Int) ∧
      v.Humidity = (if (0x02 : Byte).val < 128
        then 256 * ((0x02 : Byte).val : Int) + (0x2C : Byte).val
        else 256 * ((0x02 : Byte).val : Int) + (0x2C : Byte).val - 65536) ∧
      v.Temperature = (if (0x80 : Byte).val < 128
        then 256 * ((0x80 : Byte).val : Int) + (0x65 : Byte).val
        else 256 * ((0x80 : Byte).val : Int) + (0x65 : Byte).val - 65536)) :=
  ⟨rfl, rfl, rfl, by decide,
    (Read_decodes_big_endian defaultSensor (busDelivering none none none coldResponse)
      0x03 0x04 0x02 0x2C 0x80 0x65 0x90 0x72 rfl rfl rfl (by decide)).1⟩

/-- C4 (behaviour of the source): a bus read that stores only 5 bytes and
reports no error is not detected. For `03 04 02 02 C1` the buffer is completed
by three zero bytes, its checksum matches, and `Read` returns a reading
(temperature -1612.8, humidity 51.4) with a nil error; for `03 04 02 2C 01` the
result is the CRC-check error, not an error of the bus read. -/
theorem Read_short_read_not_detected :
    readCount (List.replicate 8 0) shortResponse = 5 ∧
    fillBuffer (List.replicate 8 0) shortResponse =
      [0x03, 0x04, 0x02, 0x02, 0xC1, 0x00, 0x00, 0x00] ∧
    (defaultSensor.Read (busDelivering none none none shortResponse)).values =
      some ⟨-16128, 514⟩ ∧
    (defaultSensor.Read (busDelivering none none none shortResponse)).err = none ∧
    (defaultSensor.Read (busDelivering none none none [0x03, 0x04, 0x02, 0x2C, 0x01])).values =
      none ∧
    (defaultSensor.Read (busDelivering none none none [0x03, 0x04, 0x02, 0x2C, 0x01])).err =
      some crcCheckFailed := by
  decide

/-- C5 as stated fails: with the address selection and the command write both
failing, and a bus read that delivers a response with a valid checksum, `Read`
returns the reading and a nil error. -/
theorem Read_select_command_failure_counterexample :
    (busDelivering (some (GoError.sys 121)) none (some (GoError.sys 121))
      sampleResponse).ioctlErr ≠ none ∧
    (busDelivering (some (GoError.sys 121)) none (some (GoError.sys 121))
      sampleResponse).cmdErr ≠ none ∧
    (defaultSensor.Read (busDelivering (some (GoError.sys 121)) none (some (GoError.sys 121))
      sampleResponse)).values = some ⟨261, 556⟩ ∧
    (defaultSensor.Read (busDelivering (some (GoError.sys 121)) none (some (GoError.sys 121))
      sampleResponse)).err = none := by
  decide

/-- C5 (amended): when the address selection or the command write fails, `Read`
does not report it. It returns what it returns when both succeed: the open
error, or the error of the bus read, with no reading; and when the open and the
bus read succeed, the outcome of the checksum comparison on the buffer. -/
theorem Read_select_command_failure_ignored (am2320 : AM2320) (bus : Bus)
    (_hfail : bus.ioctlErr ≠ none ∨ bus.cmdErr ≠ none) :
    am2320.Read bus =
      am2320.Read ⟨bus.openErr, bus.fd, none, bus.wakeErr, none, bus.delivered, bus.readErr⟩ ∧
    (∀ e, bus.openErr = some e →
      (am2320.Read bus).values = none ∧ (am2320.Read bus).err = some e) ∧
    (∀ e, bus.openErr = none → bus.readErr = some e →
      (am2320.Read bus).values = none ∧ (am2320.Read bus).err = some e) ∧
    (bus.openErr = none → bus.readErr = none →
      ((am2320.Read bus).values, (am2320.Read bus).err) =
        decode (fillBuffer (List.replicate 8 0) bus.delivered)) := by
  refine ⟨?_, ?_, ?_, ?_⟩
  · cases bus; rfl
  · intro e h
    unfold AM2320.Read
    rw [h]
    exact ⟨rfl, rfl⟩
  · intro e ho hr
    rw [Read_of_open_ok _ _ ho, readBody_result, hr]
    exact ⟨rfl, rfl⟩
  · intro ho hr
    rw [Read_of_open_ok _ _ ho, readBody_result, hr]

theorem Read_select_command_failure_ignored_witness :
    ((busDelivering (some (GoError.sys 121)) none (some (GoError.sys 121))
        sampleResponse).ioctlErr ≠ none ∨
      (busDelivering (some (GoError.sys 121)) none (some (GoError.sys 121))
        sampleResponse).cmdErr ≠ none) ∧
    defaultSensor.Read (busDelivering (some (GoError.sys 121)) none (some (GoError.sys 121))
        sampleResponse) =
      defaultSensor.Read ⟨none, 3, none, none, none, sampleResponse, none⟩ :=
  ⟨Or.inl (by decide),
    (Read_select_command_failure_ignored defaultSensor
      (busDelivering (some (GoError.sys 121)) none (some (GoError.sys 121)) sampleResponse)
      (Or.inl (by decide))).1⟩

/-- C6 (behaviour of the source): the response `03 04 02 2C 80 65 90 72` passes
the CRC check and `Read` returns the temperature -3266.7 (raw -32667), which is
below -40 degrees. -/
theorem Read_temperature_out_of_range :
    bits16 (calcCrc16 (coldResponse.take 6)) = 0x90 + 256 * 0x72 ∧
    (defaultSensor.Read (busDelivering none none none coldResponse)).values =
      some ⟨-32667, 556⟩ ∧
    (defaultSensor.Read (busDelivering none none none coldResponse)).err = none ∧
    ¬ ((-400 : Int) ≤ -32667) := by
  decide

/-- C7: when the wake write fails and every other step succeeds with an 8-byte
response whose CRC matches, `Read` returns the decoded reading and a nil error;
and whatever the wake write answers, `Read` produces the same results and the
same trace. -/
theorem Read_wake_failure_ignored (am2320 : AM2320) (bus : Bus) (e : GoError)
    (b0 b1 b2 b3 b4 b5 b6 b7 : Byte)
    (hopen : bus.openErr = none) (_hwake : bus.wakeErr = some e)
    (hread : bus.readErr = none)
    (hdel : bus.delivered = [b0, b1, b2, b3, b4, b5, b6, b7])
    (hcrc : bits16 (calcCrc16 [b0, b1, b2, b3, b4, b5]) = b6.val + 256 * b7.val) :
    (am2320.Read bus).values = some ⟨combineBytes b4 b5, combineBytes b2 b3⟩ ∧
    (am2320.Read bus).err = none ∧
    (∀ w : Option GoError,
      am2320.Read ⟨bus.openErr, bus.fd, bus.ioctlErr, w, bus.cmdErr, bus.delivered,
        bus.readErr⟩ = am2320.Read bus) := by
  have key := Read_of_eight am2320 bus b0 b1 b2 b3 b4 b5 b6 b7 hopen hread hdel
  rw [if_pos hcrc] at key
  refine ⟨congrArg Prod.fst key, congrArg Prod.snd key, ?_⟩
  intro w
  cases bus; rfl

theorem Read_wake_failure_ignored_witness :
    (busDelivering none (some (GoError.sys 121)) none sampleResponse).openErr = none ∧
    (busDelivering none (some (GoError.sys 121)) none sampleResponse).wakeErr =
      some (GoError.sys 121) ∧
    (busDelivering none (some (GoError.sys 121)) none sampleResponse).readErr = none ∧
    (busDelivering none (some (GoError.sys 121)) none sampleResponse).delivered =
      [0x03, 0x04, 0x02, 0x2C, 0x01, 0x05, 0xF0, 0x0A] ∧
    bits16 (calcCrc16 [0x03, 0x04, 0x02, 0x2C, 0x01, 0x05]) =
      (0xF0 : Byte).val + 256 * (0x0A : Byte).val ∧
    (defaultSensor.Read (busDelivering none (some (GoError.sys 121)) none sampleResponse)).values =
      some ⟨combineBytes 0x01 0x05, combineBytes 0x02 0x2C⟩ ∧
    (defaultSensor.Read (busDelivering none (some (GoError.sys 121)) none sampleResponse)).err =
      none :=
  ⟨rfl, rfl, rfl, rfl, by decide,
    (Read_wake_failure_ignored defaultSensor
      (busDelivering none (some (GoError.sys 121)) none sampleResponse) (GoError.sys 121)
      0x03 0x04 0x02 0x2C 0x01 0x05 0xF0 0x0A rfl rfl rfl rfl (by decide)).1,
    (Read_wake_failure_ignored defaultSensor
      (busDelivering none (some (GoError.sys 121)) none sampleResponse) (GoError.sys 121)
      0x03 0x04 0x02 0x2C 0x01 0x05 0xF0 0x0A rfl rfl rfl rfl (by decide)).2.1⟩

/-- C9: whenever the bus is opened, the calls `Read` issues between the open and
the close are, in this order: select the configured `Address`, write the single
byte `0x00`, sleep for a requested duration between 800 and 3000 microseconds,
write the three bytes `03 00 04`, sleep for a requested duration of at least
1500 microseconds, read into an 8-byte buffer. These two writes and this read
are the only transfers on the bus, each issued once. -/
theorem Read_trace (am2320 : AM2320) (bus : Bus) (hopen : bus.openErr = none) :
    ∃ wake wait : Nat, 800 ≤ wake ∧ wake ≤ 3000 ∧ 1500 ≤ wait ∧
      (am2320.Read bus).trace =
        [BusOp.openFile "/dev/i2c-1" "O_RDWR" 0o666,
          BusOp.ioctlSetInt bus.fd i2CSlave am2320.Address,
          BusOp.write [0x00], BusOp.sleep wake,
          BusOp.write [0x03, 0x00, 0x04], BusOp.sleep wait,
          BusOp.read 8, BusOp.close bus.fd] ∧
      (am2320.Read bus).trace.filter BusOp.isTransfer =
        [BusOp.write [0x00], BusOp.write [0x03, 0x00, 0x04], BusOp.read 8] := by
  refine ⟨1000, 1600, by decide, by decide, by decide, ?_, ?_⟩
  · rw [Read_of_open_ok _ _ hopen, readBody_trace]; rfl
  · rw [Read_of_open_ok _ _ hopen, readBody_trace]; rfl

theorem Read_trace_witness :
    (busDelivering none none none sampleResponse).openErr = none ∧
    ∃ wake wait : Nat, 800 ≤ wake ∧ wake ≤ 3000 ∧ 1500 ≤ wait ∧
      (defaultSensor.Read (busDelivering none none none sampleResponse)).trace =
        [BusOp.openFile "/dev/i2c-1" "O_RDWR" 0o666,
          BusOp.ioctlSetInt (busDelivering none none none sampleResponse).fd i2CSlave
            defaultSensor.Address,
          BusOp.write [0x00], BusOp.sleep wake,
          BusOp.write [0x03, 0x00, 0x04], BusOp.sleep wait,
          BusOp.read 8, BusOp.close (busDelivering none none none sampleResponse).fd] ∧
      (defaultSensor.Read (busDelivering none none none sampleResponse)).trace.filter
          BusOp.isTransfer =
        [BusOp.write [0x00], BusOp.write [0x03, 0x00, 0x04], BusOp.read 8] :=
  ⟨rfl, Read_trace defaultSensor (busDelivering none none none sampleResponse) rfl⟩

/-- C10: on every path of `Read` taken after the bus was opened (read failure,
CRC mismatch, reading returned) the last call issued is the close of the bus
handle, issued once; and when the open fails, `Read` returns that error with
no reading and issues no call besides the failed open. -/
theorem Read_closes_bus (am2320 : AM2320) (bus : Bus) :
    (bus.openErr = none →
      (am2320.Read bus).trace.getLast? = some (BusOp.close bus.fd) ∧
      (am2320.Read bus).trace.count (BusOp.close bus.fd) = 1 ∧
      ((∃ e, bus.readErr = some e ∧
          (am2320.Read bus).values = none ∧ (am2320.Read bus).err = some e) ∨
        (bus.readErr = none ∧
          (am2320.Read bus).values = none ∧ (am2320.Read bus).err = some crcCheckFailed) ∨
        (bus.readErr = none ∧
          (am2320.Read bus).values ≠ none ∧ (am2320.Read bus).err = none))) ∧
    (∀ e, bus.openErr = some e →
      am2320.Read bus = ⟨none, some e, [BusOp.openFile "/dev/i2c-1" "O_RDWR" 0o666]⟩) := by
  constructor
  · intro hopen
    rw [Read_of_open_ok _ _ hopen, readBody_trace, readBody_result]
    refine ⟨rfl, ?_, ?_⟩
    · simp [List.count_cons]
    · cases hr : bus.readErr with
      | some e => exact Or.inl ⟨e, rfl, rfl, rfl⟩
      | none =>
        rcases decode_cases (fillBuffer (List.replicate 8 0) bus.delivered) with h | h
        · exact Or.inr (Or.inl ⟨rfl, h.1, h.2⟩)
        · exact Or.inr (Or.inr ⟨rfl, h.1, h.2⟩)
  · intro e h
    unfold AM2320.Read
    rw [h]

theorem Read_closes_bus_witness :
    ((busDelivering none none none shortResponse).openErr = none ∧
      (defaultSensor.Read (busDelivering none none none shortResponse)).trace.getLast? =
        some (BusOp.close (busDelivering none none none shortResponse).fd)) ∧
    ((⟨some (GoError.sys 2), 0, none, none, none, [], none⟩ : Bus).openErr =
        some (GoError.sys 2) ∧
      defaultSensor.Read ⟨some (GoError.sys 2), 0, none, none, none, [], none⟩ =
        ⟨none, some (GoError.sys 2), [BusOp.openFile "/dev/i2c-1" "O_RDWR" 0o666]⟩) :=
  ⟨⟨rfl, ((Read_closes_bus defaultSensor (busDelivering none none none shortResponse)).1 rfl).1⟩,
    ⟨rfl, (Read_closes_bus defaultSensor ⟨some (GoError.sys 2), 0, none, none, none, [], none⟩).2
      (GoError.sys 2) rfl⟩⟩

end am2320
